import Mathlib

/-!
Verification of the employee-ledger request lifecycle engine.

This file shallowly embeds the parts of the repository that the claims
speak about:

* the Google Apps Script webhook handlers in
  src/scripts/google-apps-script/code.gs (second, current version of the
  script: ensureLogHeader_, newRequestId_, findLogRowByRequestId_,
  doPost, doGet);
* the local storage service (updateRequestStatus);
* the resilient read layer in src/unnamed/part_002
  (parseEmployees, fetchEmployeeDirectory, fetchUserRole, clearRoleCache,
  parseLookup, fetchLookupOptions, and the newest-first sort used by
  fetchLogRecords and fetchEmployeeLogHistory);
* the LeaveForm conditional-field policy in src/components/LeaveForm.tsx.

External collaborators (the spreadsheet service, the mail relay, fetch,
Date.parse, Math.random) are modelled as explicit inputs: sheets are
passed in and returned, sent mails are returned as a list of recipient
addresses, remote fetch outcomes and parse oracles are parameters.
JavaScript strings are modelled as Lean strings; the JS idiom
(x || y) on strings is modelled by jsOr, and JS truthiness of a string
is emptiness.
-/

/-- jsOr a b models the JavaScript expression a || b on strings:
the empty string is falsy, every other string is truthy. -/
def jsOr (a b : String) : String :=
  if a = "" then b else a

/-- JavaScript toUpperCase on the ASCII strings at hand: uppercase each
character. -/
def jsToUpper (s : String) : String := String.mk (s.data.map Char.toUpper)

/-- JavaScript toLowerCase on the ASCII strings at hand: lowercase each
character. -/
def jsToLower (s : String) : String := String.mk (s.data.map Char.toLower)

/-- JavaScript String.prototype.trim: strip leading and trailing
whitespace. -/
def jsTrim (s : String) : String :=
  String.mk (((s.data.dropWhile Char.isWhitespace).reverse.dropWhile
    Char.isWhitespace).reverse)

/-- One data row of the Logs sheet, with the 16 fixed columns written by
the current Apps Script (A Timestamp .. P Alternate Staff). Cells are
strings; the Timestamp cell holds an opaque date string. -/
structure LogRow where
  timestamp : String
  requestId : String
  rowType : String
  status : String
  employeeName : String
  employeeEmail : String
  employeeId : String
  dates : String
  reason : String
  managerComment : String
  managerAction : String
  permissionType : String
  leaveType : String
  requestedInTime : String
  requestedOutTime : String
  alternateStaff : String
  deriving DecidableEq, Repr

/-- The Logs sheet: row 1 is the header (a plain list of cells), the
remaining rows are data rows. -/
structure Sheet where
  header : List String
  rows : List LogRow
  deriving DecidableEq, Repr

/-- The 16 header titles that ensureLogHeader_ maintains on the Logs
sheet of the current script. -/
def desiredLogHeader : List String :=
  ["Timestamp", "Request ID", "Type", "Status", "Employee Name",
   "Employee Email", "Employee ID", "Dates", "Reason", "Manager Comment",
   "Manager Action", "Permission Type", "Leave Type", "Requested InTime",
   "Requested OutTime", "Alternate Staff"]

/-- Reading a fixed-width range of header cells pads missing cells with
the empty string, as getRange(1,1,1,n).getValues does. -/
def readHeaderCells (header : List String) (n : Nat) : List String :=
  (header.take n) ++ List.replicate (n - (header.take n).length) ""

/-- ensureLogHeader_ from code.gs: if every one of the 16 read header
cells is blank, write the full desired header; otherwise backfill each
blank cell with the desired title. Returns the new header row and
whether a setValues write was issued. -/
def ensureLogHeader (header : List String) : List String × Bool :=
  let cells := readHeaderCells header 16
  let hasAny := cells.any (fun v => jsTrim v != "")
  if !hasAny then
    (desiredLogHeader ++ header.drop 16, true)
  else
    let backfilled := List.zipWith
      (fun h d => if jsTrim h = "" then d else h) cells desiredLogHeader
    let changed := cells.any (fun h => jsTrim h == "")
    (backfilled ++ header.drop 16, changed)

/-- newRequestId_ from code.gs works on the string returned by
Math.random().toString(36); we embed it at the level of character
lists: REQ- concatenated with slice(2, 10) of that string, uppercased. -/
def newRequestIdChars (s : List Char) : List Char :=
  "REQ-".toList ++ ((s.drop 2).take 8).map Char.toUpper

/-- The string form of newRequestId_. -/
def newRequestId (s : String) : String :=
  String.mk (newRequestIdChars s.data)

/-- The lowercase base-36 digits, the alphabet of the fractional part of
Number.prototype.toString(36). -/
def base36Lower : List Char := "0123456789abcdefghijklmnopqrstuvwxyz".toList

/-- The character class of the claimed request-id pattern: A-Z and 0-9. -/
def upperAlnum : List Char := "ABCDEFGHIJKLMNOPQRSTUVWXYZ0123456789".toList

/-- Characterisation of the strings Math.random().toString(36) can
produce: either the integer form for zero, or a zero, a dot, and a
nonempty tail of lowercase base-36 digits. -/
def jsRandomBase36Valid (s : List Char) : Prop :=
  s = ['0'] ∨
    (∃ ds : List Char, s = '0' :: '.' :: ds ∧ ds ≠ [] ∧
      ∀ c ∈ ds, c ∈ base36Lower)

/-- The claimed shape of a created request id: REQ- followed by exactly
eight characters drawn from A-Z and 0-9. -/
def matchesReqIdPattern (s : List Char) : Bool :=
  s.take 4 == "REQ-".toList &&
    (s.drop 4).length == 8 &&
    (s.drop 4).all (fun c => decide (c ∈ upperAlnum))

/-- findLogRowByRequestId_ from code.gs: the first data row whose
Request ID cell, trimmed, equals the given id (the given id is already
trimmed by the caller). Returns a zero-based index into the data rows. -/
def findLogRowByRequestId (rows : List LogRow) (requestId : String) :
    Option Nat :=
  rows.findIdx? (fun r => jsTrim r.requestId == requestId)

/-- Responses of the doPost decision branch. -/
inductive PostResponse where
  | ok
  | errMissingId
  | errNotFound
  deriving DecidableEq, Repr

/-- Result of a doPost call: the textual outcome, the sheet afterwards,
the recipients of sent mails, and counts of header-row writes and of
data-row writes (setValue and appendRow calls). -/
structure PostResult where
  response : PostResponse
  sheet : Sheet
  emails : List String
  headerWrites : Nat
  rowWrites : Nat
  deriving DecidableEq, Repr

instance : Inhabited LogRow :=
  ⟨⟨"", "", "", "", "", "", "", "", "", "", "", "", "", "", "", ""⟩⟩

/-- The decision branch of doPost in code.gs (payload type decision).
Arguments mirror the payload fields requestId, status, managerComment.
ensureLogHeader_ runs before the row lookup; on a match the Status,
Manager Comment and Manager Action cells of that row are overwritten
and one mail is sent to the rows employee email when it is nonempty. -/
def doPostDecision (sheet : Sheet) (requestIdRaw status managerComment : String) :
    PostResult :=
  let eh := ensureLogHeader sheet.header
  let header1 := eh.1
  let hw := if eh.2 then 1 else 0
  let sheet1 : Sheet := { header := header1, rows := sheet.rows }
  let rid := jsTrim requestIdRaw
  if rid = "" then
    { response := .errMissingId, sheet := sheet1, emails := [],
      headerWrites := hw, rowWrites := 0 }
  else
    match findLogRowByRequestId sheet1.rows rid with
    | none =>
        { response := .errNotFound, sheet := sheet1, emails := [],
          headerWrites := hw, rowWrites := 0 }
    | some i =>
        let row := sheet1.rows[i]?.getD default
        let st := jsOr (jsToUpper status) "PENDING"
        let comment := jsTrim managerComment
        let action :=
          if st = "APPROVED" then "APPROVE"
          else if st = "REJECTED" then "DENY" else ""
        let newRow := { row with
          status := st, managerComment := comment, managerAction := action }
        let sheet2 : Sheet := { header := header1, rows := sheet1.rows.set i newRow }
        let emails := if row.employeeEmail ≠ "" then [row.employeeEmail] else []
        { response := .ok, sheet := sheet2, emails := emails,
          headerWrites := hw, rowWrites := 3 }

/-- The payload of a new leave request submission (the request branch of
doPost). Missing JSON fields are modelled as empty strings. -/
structure Draft where
  status : String
  employeeName : String
  employeeEmail : String
  employeeId : String
  startDate : String
  endDate : String
  reason : String
  managerComment : String
  permissionType : String
  leaveType : String
  requestedInTime : String
  requestedOutTime : String
  alternateStaff : String
  deriving DecidableEq, Repr

/-- Result of the new-request branch of doPost: the sheet afterwards,
the minted id, and the mail recipients (the manager address). -/
structure CreateResult where
  sheet : Sheet
  requestId : String
  emails : List String
  deriving DecidableEq, Repr

/-- The new-request branch of doPost in code.gs: mint an id from the
random base-36 string, append one 16-column row, and mail the manager.
now is the stringified value of new Date(). -/
def doPostNewRequest (sheet : Sheet) (draft : Draft)
    (now randomBase36 : String) (managerEmail : String) : CreateResult :=
  let header1 := (ensureLogHeader sheet.header).1
  let rid := newRequestId randomBase36
  let dates := draft.startDate ++ " - " ++ draft.endDate
  let row : LogRow :=
    { timestamp := now
      requestId := rid
      rowType := "request"
      status := jsOr draft.status "PENDING"
      employeeName := draft.employeeName
      employeeEmail := draft.employeeEmail
      employeeId := draft.employeeId
      dates := dates
      reason := draft.reason
      managerComment := jsOr draft.managerComment ""
      managerAction := ""
      permissionType := jsOr draft.permissionType ""
      leaveType := jsOr draft.leaveType ""
      requestedInTime := jsOr draft.requestedInTime ""
      requestedOutTime := jsOr draft.requestedOutTime ""
      alternateStaff := jsOr draft.alternateStaff "" }
  { sheet := { header := header1, rows := sheet.rows ++ [row] }
    requestId := rid
    emails := [managerEmail] }

/-- Responses of doGet. -/
inductive GetResponse where
  | preflight
  | invalidHtml
  | notFoundHtml
  | successHtml
  deriving DecidableEq, Repr

/-- Result of a doGet call: response page, sheet afterwards, mail
recipients, and the number of cell writes issued. -/
structure GetResult where
  response : GetResponse
  sheet : Sheet
  emails : List String
  writes : Nat
  deriving DecidableEq, Repr

/-- The rid lookup of doGet: strict equality on the raw Request ID
cell, first match wins. -/
def findStrictRow (rows : List LogRow) (rid : String) : Option Nat :=
  rows.findIdx? (fun r => r.requestId == rid)

/-- doGet from code.gs, for a non-preflight request carrying the query
parameters action and rid (empty string models an absent parameter).
It scans the data rows for a strict match on the Request ID cell, and
on a match sets Status to APPROVED when the uppercased action is
APPROVE and to REJECTED otherwise, writes the uppercased action into
the Manager Action cell, and mails the employee when the email cell is
nonempty. No header maintenance runs on this path. -/
def doGet (sheet : Sheet) (actionParam ridParam : String) : GetResult :=
  if actionParam = "" ∨ ridParam = "" then
    { response := .invalidHtml, sheet := sheet, emails := [], writes := 0 }
  else
    let action := jsToUpper actionParam
    match findStrictRow sheet.rows ridParam with
    | none =>
        { response := .notFoundHtml, sheet := sheet, emails := [], writes := 0 }
    | some i =>
        let row := sheet.rows[i]?.getD default
        let newStatus := if action = "APPROVE" then "APPROVED" else "REJECTED"
        let newRow := { row with status := newStatus, managerAction := action }
        let emails := if row.employeeEmail ≠ "" then [row.employeeEmail] else []
        { response := .successHtml
          sheet := { header := sheet.header, rows := sheet.rows.set i newRow }
          emails := emails
          writes := 2 }

/-- A locally stored leave request, as kept by the storage service under
the swiftleave_data_v1 key. -/
structure LeaveReq where
  id : String
  employeeName : String
  employeeEmail : String
  employeeId : String
  permissionType : String
  leaveType : String
  requestedInTime : String
  requestedOutTime : String
  startDate : String
  endDate : String
  reason : String
  aiGeneratedEmail : String
  status : String
  managerComment : String
  alternateStaff : String
  timestamp : Nat
  deriving DecidableEq, Repr

/-- updateRequestStatus from the storage service: map over the stored
requests and overwrite status and managerComment on every request whose
id matches, with no check of the current status. -/
def updateRequestStatus (reqs : List LeaveReq) (id status managerComment : String) :
    List LeaveReq :=
  reqs.map (fun req =>
    if req.id == id then
      { req with status := status, managerComment := managerComment }
    else req)

/-- A parsed directory entry (EmployeeRecord in src/types.ts); the role
is kept as a plain string as the parser only coerces case. -/
structure EmployeeRecord where
  email : String
  name : String
  employeeId : String
  role : String
  deriving DecidableEq, Repr

/-- Reading row[idx] when the column index may be absent (-1 in the
source) or past the end of the row: both give undefined. -/
def getOptCell (row : List String) (idx : Option Nat) : Option String :=
  idx.bind (fun i => row.get? i)

/-- parseEmployees from part_002: header names are trimmed and
lowercased, each logical field is bound through a synonym list, records
without a resolvable email are dropped, and a missing email or role
column empties the whole directory. The argument is data.values, which
may be absent. -/
def parseEmployees (values : Option (List (List String))) : List EmployeeRecord :=
  match values with
  | none => []
  | some v =>
    if v.length < 2 then []
    else
      let headers := (v.headD []).map (fun h => jsToLower (jsTrim h))
      let findIdx := fun (keys : List String) =>
        keys.findSome? (fun k => headers.indexOf? (jsToLower k))
      let emailIdx := findIdx ["email", "email_id", "emailid"]
      let nameIdx := findIdx ["name", "emp_name", "employee_name"]
      let idIdx := findIdx ["employeeid", "emp_code", "employee_code"]
      let roleIdx := findIdx ["role"]
      if emailIdx = none ∨ roleIdx = none then []
      else
        ((v.drop 1).map (fun row =>
          ({ email := ((getOptCell row emailIdx).map
               (fun s => jsToLower (jsTrim s))).getD ""
             name := ((getOptCell row nameIdx).map jsTrim).getD ""
             employeeId := ((getOptCell row idIdx).map jsTrim).getD ""
             role := jsOr (((getOptCell row roleIdx).map
               (fun s => jsToLower (jsTrim s))).getD "") "employee" } : EmployeeRecord)))
          |>.filter (fun e => e.email != "")

/-- The durable directory cache: a JS object keyed by email, modelled as
an association list in key insertion order. -/
abbrev DirCache := List (String × EmployeeRecord)

/-- Assignment into a JS object: an existing key keeps its position and
gets the new value, a new key is appended at the end. -/
def assocSetDir : DirCache → String → EmployeeRecord → DirCache
  | [], k, v => [(k, v)]
  | q :: rest, k, v =>
      if q.1 == k then (k, v) :: rest else q :: assocSetDir rest k v

/-- The directory.reduce call that rebuilds the directory cache object
from a freshly parsed directory. -/
def buildDirCache (dir : List EmployeeRecord) : DirCache :=
  dir.foldl (fun acc e => assocSetDir acc e.email e) []

/-- Outcome of one remote sheet read, covering the failure taxonomy of
the claims: network error (fetch throws), non-success response status,
malformed body (res.json throws), and a success whose values key may be
absent. -/
inductive RemoteOutcome where
  | netError
  | httpError
  | malformedBody
  | ok (values : Option (List (List String)))
  deriving DecidableEq, Repr

/-- Result of fetchEmployeeDirectory: the returned list, the directory
cache afterwards, and whether a console warning or error was emitted. -/
structure DirFetchResult where
  result : List EmployeeRecord
  cache : DirCache
  logged : Bool
  deriving DecidableEq, Repr

/-- fetchEmployeeDirectory from part_002. With config missing it warns
and returns the empty list. A non-ok response status logs and returns
the empty list without touching the cache. A thrown failure (network
error or malformed body) logs and returns the cached values. On success
the parsed directory replaces the cache. The function never throws: it
always produces a value. -/
def fetchEmployeeDirectory (configured : Bool) (outcome : RemoteOutcome)
    (cache : DirCache) : DirFetchResult :=
  if !configured then
    { result := [], cache := cache, logged := true }
  else
    match outcome with
    | .httpError => { result := [], cache := cache, logged := true }
    | .netError => { result := cache.map (fun p => p.2), cache := cache, logged := true }
    | .malformedBody =>
        { result := cache.map (fun p => p.2), cache := cache, logged := true }
    | .ok values =>
        let dir := parseEmployees values
        { result := dir, cache := buildDirCache dir, logged := false }

/-- A resolved user profile (UserProfile in src/types.ts). -/
structure UserProfile where
  email : String
  name : String
  role : String
  deriving DecidableEq, Repr

/-- The session role cache, an association list keyed by normalized
email. -/
abbrev RoleCache := List (String × UserProfile)

/-- Lookup in the role cache object. -/
def roleCacheGet (cache : RoleCache) (k : String) : Option UserProfile :=
  (cache.find? (fun p => p.1 == k)).map (fun p => p.2)

/-- Assignment into the role cache object: an existing key keeps its
position and gets the new value, a new key is appended at the end. -/
def roleCacheSet : RoleCache → String → UserProfile → RoleCache
  | [], k, v => [(k, v)]
  | q :: rest, k, v =>
      if q.1 == k then (k, v) :: rest else q :: roleCacheSet rest k v

/-- Result of fetchUserRole: the profile if resolved, both caches
afterwards, and whether the employee directory was fetched. -/
structure RoleFetchResult where
  result : Option UserProfile
  roleCache : RoleCache
  dirCache : DirCache
  fetchedDirectory : Bool
  deriving DecidableEq, Repr

/-- fetchUserRole from part_002: trim and lowercase the email, return
the cached profile on a hit without fetching the directory, otherwise
fetch the directory, resolve the record, and cache the profile. -/
def fetchUserRole (email : String) (roleCache : RoleCache)
    (configured : Bool) (outcome : RemoteOutcome) (dirCache : DirCache) :
    RoleFetchResult :=
  let normalizedEmail := jsToLower (jsTrim email)
  if normalizedEmail = "" then
    { result := none, roleCache := roleCache, dirCache := dirCache,
      fetchedDirectory := false }
  else
    match roleCacheGet roleCache normalizedEmail with
    | some p =>
        { result := some p, roleCache := roleCache, dirCache := dirCache,
          fetchedDirectory := false }
    | none =>
        let d := fetchEmployeeDirectory configured outcome dirCache
        match d.result.find? (fun e => e.email == normalizedEmail) with
        | some m =>
            let profile : UserProfile :=
              { email := m.email, name := m.name, role := m.role }
            { result := some profile
              roleCache := roleCacheSet roleCache normalizedEmail profile
              dirCache := d.cache
              fetchedDirectory := true }
        | none =>
            { result := none, roleCache := roleCache, dirCache := d.cache,
              fetchedDirectory := true }

/-- The three session caches removed by clearRoleCache. -/
structure SessionCaches where
  roleCache : RoleCache
  dirCache : DirCache
  lookupCache : Option (List String × List String)
  deriving DecidableEq, Repr

/-- clearRoleCache from part_002 removes the role cache, the directory
cache and the lookup cache from local storage. -/
def clearRoleCache (_s : SessionCaches) : SessionCaches :=
  { roleCache := [], dirCache := [], lookupCache := none }

/-- The two dropdown option sets (LookupOptions in part_002). -/
structure LookupOptions where
  permissionTypes : List String
  leaveTypes : List String
  deriving DecidableEq, Repr

/-- The empty option set returned when nothing is available. -/
def emptyLookupOptions : LookupOptions :=
  { permissionTypes := [], leaveTypes := [] }

/-- normalizeOption from part_002: non-strings become empty, strings are
trimmed (the model always receives strings). -/
def normalizeOption (s : String) : String := jsTrim s

/-- uniq from part_002: drop falsy entries, then keep the first
occurrence of each value, in order, as Set insertion does. -/
def uniqOptions (l : List String) : List String :=
  (l.filter (fun s => s != "")).foldl
    (fun acc x => if acc.contains x then acc else acc ++ [x]) []

/-- normalizeHeaderKey from parseLookup: trim, lowercase, and erase all
whitespace and underscores (the [\s_]+ replacement). -/
def normalizeHeaderKey (v : String) : String :=
  String.mk ((jsToLower (normalizeOption v)).toList.filter
    (fun c => !(c.isWhitespace || c == '_')))

/-- Reading values[i]?.[j] with an empty-string default. -/
def gridCell (v : List (List String)) (i j : Nat) : String :=
  ((v.get? i).bind (fun r => r.get? j)).getD ""

/-- parseLookup from part_002: detect the header row by its first two
cells, then read permission types from column A and leave types from
column B, deduplicated. -/
def parseLookup (values : Option (List (List String))) : LookupOptions :=
  match values with
  | none => emptyLookupOptions
  | some v =>
    if v.length = 0 then emptyLookupOptions
    else
      let firstA := normalizeHeaderKey (gridCell v 0 0)
      let firstB := normalizeHeaderKey (gridCell v 0 1)
      let hasHeader := firstA == "permissiontype" || firstB == "leavetype" ||
        (firstA == "permissiontype" && firstB == "leavetype")
      let rows := v.drop (if hasHeader then 1 else 0)
      { permissionTypes :=
          uniqOptions (rows.map (fun r => normalizeOption ((r.get? 0).getD "")))
        leaveTypes :=
          uniqOptions (rows.map (fun r => normalizeOption ((r.get? 1).getD ""))) }

/-- Result of fetchLookupOptions: the options, the lookup cache
afterwards, and whether a console warning or error was emitted. -/
structure LookupFetchResult where
  result : LookupOptions
  cache : Option LookupOptions
  logged : Bool
  deriving DecidableEq, Repr

/-- fetchLookupOptions from part_002. Every failure mode, and missing
config, falls back to the cached options or to the empty option set;
success parses and replaces the cache. The function never throws. -/
def fetchLookupOptions (configured : Bool) (outcome : RemoteOutcome)
    (cache : Option LookupOptions) : LookupFetchResult :=
  if !configured then
    { result := cache.getD emptyLookupOptions, cache := cache, logged := true }
  else
    match outcome with
    | .httpError =>
        { result := cache.getD emptyLookupOptions, cache := cache, logged := true }
    | .netError =>
        { result := cache.getD emptyLookupOptions, cache := cache, logged := true }
    | .malformedBody =>
        { result := cache.getD emptyLookupOptions, cache := cache, logged := true }
    | .ok values =>
        let parsed := parseLookup values
        { result := parsed, cache := some parsed, logged := false }

/-- A client-side parsed log row (LogSheetRecord in part_002), the
element type of the sorted record sets. -/
structure LogSheetRecord where
  timestamp : String
  requestId : String
  rowType : String
  status : String
  employeeName : String
  employeeEmail : String
  employeeId : String
  dates : String
  reason : String
  managerComment : String
  managerAction : String
  permissionType : String
  leaveType : String
  requestedInTime : String
  requestedOutTime : String
  deriving DecidableEq, Repr

/-- The comparator passed to sort by fetchLogRecords and
fetchEmployeeLogHistory: tb - ta when both timestamps parse, 0 when
either is NaN. Date.parse is an external oracle, passed in as a
function returning none for NaN. -/
def cmpNewestFirst (dateParse : String → Option Int)
    (a b : LogSheetRecord) : Int :=
  match dateParse a.timestamp, dateParse b.timestamp with
  | some ta, some tb => tb - ta
  | _, _ => 0

/-- Insertion into the reversed already-placed prefix: the new element
lands directly after the rightmost placed element that does not compare
strictly greater, as the stable insertion step engines apply to short
arrays does (equal elements stay behind the placed ones). -/
def insertRevBy (cmp : α → α → Int) (x : α) : List α → List α
  | [] => [x]
  | z :: zs => if cmp z x ≤ 0 then x :: z :: zs else z :: insertRevBy cmp x zs

/-- The stable comparator sort modelling Array.prototype.sort on the
short arrays at hand: elements are inserted one by one into the placed
prefix, kept in reversed order internally. -/
def jsStableSort (cmp : α → α → Int) (l : List α) : List α :=
  (l.foldl (fun acc x => insertRevBy cmp x acc) []).reverse

/-- The newest-first sort step shared by fetchLogRecords and
fetchEmployeeLogHistory. -/
def sortLogRecords (dateParse : String → Option Int)
    (l : List LogSheetRecord) : List LogSheetRecord :=
  jsStableSort (cmpNewestFirst dateParse) l

/-- The LeaveForm state (src/components/LeaveForm.tsx, formData). -/
structure FormState where
  name : String
  email : String
  empId : String
  permissionType : String
  leaveType : String
  requestedInTime : String
  requestedOutTime : String
  startDate : String
  endDate : String
  alternateStaff : String
  reason : String
  deriving DecidableEq, Repr

/-- PERMISSION_ONLY_LEAVE_TYPES from LeaveForm.tsx. -/
def permissionOnlyLeaveTypes : List String :=
  ["FN Permission", "AN Permission", "In Between Permission"]

/-- normalize from LeaveForm.tsx: trim and lowercase. -/
def normalizeField (v : String) : String := jsToLower (jsTrim v)

/-- The normalized permission-only set built inside the effects. -/
def permissionOnlyNormalized : List String :=
  permissionOnlyLeaveTypes.map normalizeField

/-- isPermission from LeaveForm.tsx. -/
def isPermission (fs : FormState) : Bool :=
  normalizeField fs.permissionType == "permission"

/-- showInTimeField from LeaveForm.tsx: the InTime input is rendered,
with the required attribute, exactly when this is true. -/
def showInTimeField (fs : FormState) : Bool :=
  isPermission fs &&
    (normalizeField fs.leaveType == normalizeField "FN Permission" ||
      normalizeField fs.leaveType == normalizeField "In Between Permission")

/-- showOutTimeField from LeaveForm.tsx: the OutTime input is rendered,
with the required attribute, exactly when this is true. -/
def showOutTimeField (fs : FormState) : Bool :=
  isPermission fs &&
    (normalizeField fs.leaveType == normalizeField "AN Permission" ||
      normalizeField fs.leaveType == normalizeField "In Between Permission")

/-- The effect LeaveForm runs on every change of permissionType: away
from permission it clears both time fields and a permission-only leave
type; on permission it clears a leave type that is not permission-only. -/
def effectPermissionTypeChange (fs : FormState) : FormState :=
  if normalizeField fs.permissionType != "permission" then
    let fs1 := { fs with requestedInTime := "", requestedOutTime := "" }
    if permissionOnlyNormalized.contains (normalizeField fs.leaveType) then
      { fs1 with leaveType := "" }
    else fs1
  else
    if fs.leaveType != "" &&
        !(permissionOnlyNormalized.contains (normalizeField fs.leaveType)) then
      { fs with leaveType := "" }
    else fs

/-- The effect LeaveForm runs on every change of permissionType or
leaveType: clear any time field that is no longer needed. -/
def effectLeaveTypeChange (fs : FormState) : FormState :=
  let isPerm := normalizeField fs.permissionType == "permission"
  let lt := normalizeField fs.leaveType
  let needsIn := isPerm &&
    (lt == normalizeField "FN Permission" ||
      lt == normalizeField "In Between Permission")
  let needsOut := isPerm &&
    (lt == normalizeField "AN Permission" ||
      lt == normalizeField "In Between Permission")
  { fs with
    requestedInTime := if needsIn then fs.requestedInTime else ""
    requestedOutTime := if needsOut then fs.requestedOutTime else "" }

/-- The log entry payload built by handleSubmit in LeaveForm.tsx (the
fields of the appendLogEntry call that depend on the form state). -/
structure SubmittedEntry where
  status : String
  employeeName : String
  employeeEmail : String
  employeeId : String
  permissionType : String
  leaveType : String
  requestedInTime : String
  requestedOutTime : String
  startDate : String
  endDate : String
  alternateStaff : String
  reason : String
  deriving DecidableEq, Repr

/-- handleSubmit from LeaveForm.tsx: the persisted record carries the
time fields exactly when the corresponding input is shown, and the
status PENDING. -/
def submittedEntry (fs : FormState) : SubmittedEntry :=
  { status := "PENDING"
    employeeName := fs.name
    employeeEmail := fs.email
    employeeId := fs.empId
    permissionType := fs.permissionType
    leaveType := fs.leaveType
    requestedInTime := if showInTimeField fs then fs.requestedInTime else ""
    requestedOutTime := if showOutTimeField fs then fs.requestedOutTime else ""
    startDate := fs.startDate
    endDate := fs.endDate
    alternateStaff := fs.alternateStaff
    reason := fs.reason }

/-- A row with its three decision cells overwritten, as the decision
paths do. -/
def decidedRow (row : LogRow) (st cm ac : String) : LogRow :=
  { row with status := st, managerComment := cm, managerAction := ac }

/-- A row with status and manager action overwritten, as the deep-link
path does. -/
def actedRow (row : LogRow) (st ac : String) : LogRow :=
  { row with status := st, managerAction := ac }

/-- C10: on the deep-link endpoint, any uppercased action other than
APPROVE rejects the matched row and records the raw uppercased action. -/
theorem C10_doGet_nonapprove_rejects (sheet : Sheet) (action rid : String)
    (i : Nat) (row : LogRow)
    (ha : action ≠ "") (hr : rid ≠ "")
    (hfind : findStrictRow sheet.rows rid = some i)
    (hrow : sheet.rows[i]? = some row)
    (hact : jsToUpper action ≠ "APPROVE") :
    (doGet sheet action rid).sheet.rows[i]? =
      some (actedRow row "REJECTED" (jsToUpper action)) := by
  have hlen : i < sheet.rows.length := by
    rcases List.getElem?_eq_some.mp hrow with ⟨h, _⟩
    exact h
  simp only [doGet]
  rw [if_neg (by simp [ha, hr])]
  simp only [hfind]
  simp [hrow, hact, actedRow, List.getElem?_set_self hlen]

/-- A data row with given request id and status, all other cells empty,
used by concrete witnesses and counterexamples. -/
def mkRow (rid st : String) : LogRow :=
  { (default : LogRow) with requestId := rid, status := st }

/-- Witness for C10 at a concrete sheet and the action foo. -/
theorem C10_doGet_nonapprove_rejects_witness :
    (doGet { header := desiredLogHeader, rows := [mkRow "REQ-AAAA1111" "PENDING"] }
      "foo" "REQ-AAAA1111").sheet.rows[0]? =
      some (actedRow (mkRow "REQ-AAAA1111" "PENDING") "REJECTED" "FOO") := by
  have h := C10_doGet_nonapprove_rejects
    { header := desiredLogHeader, rows := [mkRow "REQ-AAAA1111" "PENDING"] }
    "foo" "REQ-AAAA1111" 0 (mkRow "REQ-AAAA1111" "PENDING")
    (by decide) (by decide) (by decide) (by decide) (by decide)
  simpa [actedRow] using h

/-- C4: deciding APPROVED with an empty comment on an existing row
rewrites exactly the Status, Manager Comment and Manager Action cells of
that row, reads back as APPROVED with the APPROVE action, and leaves
every other column of that row, and every other data row, unchanged. -/
theorem C4_decide_approved_frame (sheet : Sheet) (rid : String) (i : Nat)
    (row : LogRow)
    (hne : jsTrim rid ≠ "")
    (hfind : findLogRowByRequestId sheet.rows (jsTrim rid) = some i)
    (hrow : sheet.rows[i]? = some row) :
    (doPostDecision sheet rid "APPROVED" "").sheet.rows[i]? =
      some (decidedRow row "APPROVED" "" "APPROVE") ∧
    ∀ j, j ≠ i →
      (doPostDecision sheet rid "APPROVED" "").sheet.rows[j]? = sheet.rows[j]? := by
  have hlen : i < sheet.rows.length := by
    rcases List.getElem?_eq_some.mp hrow with ⟨h, _⟩
    exact h
  have hst : jsOr (jsToUpper "APPROVED") "PENDING" = "APPROVED" := by decide
  have hcm : jsTrim "" = "" := by decide
  constructor
  · simp only [doPostDecision]
    rw [if_neg hne]
    simp only [hfind, hrow, hst, hcm]
    simp [decidedRow, List.getElem?_set_self hlen]
  · intro j hj
    simp only [doPostDecision]
    rw [if_neg hne]
    simp only [hfind]
    simp [List.getElem?_set_ne (by omega : i ≠ j)]

/-- Witness for C4 at a concrete one-row sheet. -/
theorem C4_decide_approved_frame_witness :
    (doPostDecision
      { header := desiredLogHeader, rows := [mkRow "REQ-AAAA1111" "PENDING"] }
      "REQ-AAAA1111" "APPROVED" "").sheet.rows[0]? =
      some (decidedRow (mkRow "REQ-AAAA1111" "PENDING") "APPROVED" "" "APPROVE") := by
  have h := C4_decide_approved_frame
    { header := desiredLogHeader, rows := [mkRow "REQ-AAAA1111" "PENDING"] }
    "REQ-AAAA1111" 0 (mkRow "REQ-AAAA1111" "PENDING")
    (by decide) (by decide) (by decide)
  exact h.1

/-- A locally stored request with given id and status, all other fields
empty, for concrete inputs. -/
def mkLeaveReq (id st : String) : LeaveReq :=
  ⟨id, "", "", "", "", "", "", "", "", "", "", "", st, "", "", 0⟩

/-- C1 counterexample: a row whose status is already the non-PENDING
value APPROVED is overwritten to REJECTED by the in-app decision entry
point, so a non-PENDING status is not terminal. -/
theorem C1_terminal_status_counterexample :
    (({ header := desiredLogHeader,
        rows := [mkRow "REQ-AAAA1111" "APPROVED"] } : Sheet).rows[0]?.map
          LogRow.status = some "APPROVED") ∧
    ((doPostDecision
        { header := desiredLogHeader,
          rows := [mkRow "REQ-AAAA1111" "APPROVED"] }
        "REQ-AAAA1111" "REJECTED" "").sheet.rows[0]?.map LogRow.status =
          some "REJECTED") := by
  decide

/-- C1 amended: every decision operation writes the status of the
matched row unconditionally, without inspecting the current status: the
in-app POST writes the uppercased payload status (PENDING when empty),
the deep-link GET writes APPROVED or REJECTED from the action, and the
local updateRequestStatus writes the supplied status, so a non-PENDING
status can be overwritten again. -/
theorem C1_decision_writes_status_unconditionally :
    (∀ (sheet : Sheet) (rid st cm : String) (i : Nat) (row : LogRow),
      jsTrim rid ≠ "" →
      findLogRowByRequestId sheet.rows (jsTrim rid) = some i →
      sheet.rows[i]? = some row →
      (doPostDecision sheet rid st cm).sheet.rows[i]?.map LogRow.status =
        some (jsOr (jsToUpper st) "PENDING")) ∧
    (∀ (sheet : Sheet) (action rid : String) (i : Nat) (row : LogRow),
      action ≠ "" → rid ≠ "" →
      findStrictRow sheet.rows rid = some i →
      sheet.rows[i]? = some row →
      (doGet sheet action rid).sheet.rows[i]?.map LogRow.status =
        some (if jsToUpper action = "APPROVE" then "APPROVED" else "REJECTED")) ∧
    (∀ (reqs : List LeaveReq) (id st cm : String) (i : Nat) (req : LeaveReq),
      reqs[i]? = some req → req.id = id →
      (updateRequestStatus reqs id st cm)[i]?.map LeaveReq.status = some st) := by
  refine ⟨?_, ?_, ?_⟩
  · intro sheet rid st cm i row hne hfind hrow
    have hlen : i < sheet.rows.length := by
      rcases List.getElem?_eq_some.mp hrow with ⟨h, _⟩
      exact h
    simp only [doPostDecision]
    rw [if_neg hne]
    simp only [hfind, hrow]
    simp [List.getElem?_set_self hlen]
  · intro sheet action rid i row ha hr hfind hrow
    have hlen : i < sheet.rows.length := by
      rcases List.getElem?_eq_some.mp hrow with ⟨h, _⟩
      exact h
    simp only [doGet]
    rw [if_neg (by simp [ha, hr])]
    simp only [hfind, hrow]
    by_cases hact : jsToUpper action = "APPROVE" <;>
      simp [hact, List.getElem?_set_self hlen]
  · intro reqs id st cm i req hreq hid
    simp only [updateRequestStatus, List.getElem?_map, hreq]
    simp [hid]

/-- Witness for the C1 amended theorem: each of the three operations
overwrites an already APPROVED status. -/
theorem C1_decision_writes_status_unconditionally_witness :
    ((doPostDecision
        { header := desiredLogHeader, rows := [mkRow "REQ-CCCC0001" "APPROVED"] }
        "REQ-CCCC0001" "REJECTED" "").sheet.rows[0]?.map LogRow.status =
          some "REJECTED") ∧
    ((doGet
        { header := desiredLogHeader, rows := [mkRow "REQ-CCCC0002" "APPROVED"] }
        "deny" "REQ-CCCC0002").sheet.rows[0]?.map LogRow.status =
          some "REJECTED") ∧
    ((updateRequestStatus [mkLeaveReq "x1" "APPROVED"] "x1" "REJECTED"
        "")[0]?.map LeaveReq.status = some "REJECTED") := by
  refine ⟨?_, ?_, ?_⟩
  · have h := C1_decision_writes_status_unconditionally.1
      { header := desiredLogHeader, rows := [mkRow "REQ-CCCC0001" "APPROVED"] }
      "REQ-CCCC0001" "REJECTED" "" 0 (mkRow "REQ-CCCC0001" "APPROVED")
      (by decide) (by decide) (by decide)
    simpa using h
  · have h := C1_decision_writes_status_unconditionally.2.1
      { header := desiredLogHeader, rows := [mkRow "REQ-CCCC0002" "APPROVED"] }
      "deny" "REQ-CCCC0002" 0 (mkRow "REQ-CCCC0002" "APPROVED")
      (by decide) (by decide) (by decide) (by decide)
    rw [h]
    decide
  · have h := C1_decision_writes_status_unconditionally.2.2
      [mkLeaveReq "x1" "APPROVED"] "x1" "REJECTED" "" 0
      (mkLeaveReq "x1" "APPROVED") (by decide) (by decide)
    simpa using h

/-- C5 counterexample: with a header missing its sixteenth title, the
in-app decision entry point on an unknown request id still reports the
id as not found, but ensureLogHeader has already issued a header write,
so the operation does not perform zero writes to the table. -/
theorem C5_notfound_zero_writes_counterexample :
    ((doPostDecision { header := desiredLogHeader.take 15, rows := [] }
        "REQ-NOPE9999" "APPROVED" "").response = PostResponse.errNotFound) ∧
    ((doPostDecision { header := desiredLogHeader.take 15, rows := [] }
        "REQ-NOPE9999" "APPROVED" "").headerWrites = 1) ∧
    ((doPostDecision { header := desiredLogHeader.take 15, rows := [] }
        "REQ-NOPE9999" "APPROVED" "").sheet.header ≠ desiredLogHeader.take 15) := by
  decide

/-- C5 amended: a decision on an id matching no row reports not found,
sends no mail, and performs zero data-row writes on both entry points;
the deep-link entry point touches nothing at all, while the in-app
entry point may first backfill blank header cells in row 1. -/
theorem C5_notfound_no_data_writes :
    (∀ (sheet : Sheet) (rid st cm : String),
      jsTrim rid ≠ "" →
      findLogRowByRequestId sheet.rows (jsTrim rid) = none →
      (doPostDecision sheet rid st cm).response = PostResponse.errNotFound ∧
      (doPostDecision sheet rid st cm).sheet.rows = sheet.rows ∧
      (doPostDecision sheet rid st cm).rowWrites = 0 ∧
      (doPostDecision sheet rid st cm).emails = []) ∧
    (∀ (sheet : Sheet) (action rid : String),
      action ≠ "" → rid ≠ "" →
      findStrictRow sheet.rows rid = none →
      (doGet sheet action rid).response = GetResponse.notFoundHtml ∧
      (doGet sheet action rid).sheet = sheet ∧
      (doGet sheet action rid).writes = 0 ∧
      (doGet sheet action rid).emails = []) := by
  constructor
  · intro sheet rid st cm hne hfind
    simp only [doPostDecision]
    rw [if_neg hne]
    simp [hfind]
  · intro sheet action rid ha hr hfind
    simp only [doGet]
    rw [if_neg (by simp [ha, hr])]
    simp [hfind]

/-- Witness for the C5 amended theorem at a one-row sheet and an id
matching nothing. -/
theorem C5_notfound_no_data_writes_witness :
    ((doPostDecision
        { header := desiredLogHeader, rows := [mkRow "REQ-DDDD0001" "PENDING"] }
        "REQ-NOPE0000" "APPROVED" "").response = PostResponse.errNotFound) ∧
    ((doGet
        { header := desiredLogHeader, rows := [mkRow "REQ-DDDD0001" "PENDING"] }
        "APPROVE" "REQ-NOPE0000").sheet =
      { header := desiredLogHeader, rows := [mkRow "REQ-DDDD0001" "PENDING"] }) := by
  constructor
  · exact (C5_notfound_no_data_writes.1
      { header := desiredLogHeader, rows := [mkRow "REQ-DDDD0001" "PENDING"] }
      "REQ-NOPE0000" "APPROVED" "" (by decide) (by decide)).1
  · exact (C5_notfound_no_data_writes.2
      { header := desiredLogHeader, rows := [mkRow "REQ-DDDD0001" "PENDING"] }
      "APPROVE" "REQ-NOPE0000" (by decide) (by decide) (by decide)).2.1

/-- Full characterisation of the found case of the in-app decision
path, shared by several claims. -/
theorem doPostDecision_found_spec (sheet : Sheet) (rid st cm : String)
    (i : Nat) (row : LogRow)
    (hne : jsTrim rid ≠ "")
    (hfind : findLogRowByRequestId sheet.rows (jsTrim rid) = some i)
    (hrow : sheet.rows[i]? = some row) :
    (doPostDecision sheet rid st cm).sheet.rows[i]? =
      some (decidedRow row (jsOr (jsToUpper st) "PENDING") (jsTrim cm)
        (if jsOr (jsToUpper st) "PENDING" = "APPROVED" then "APPROVE"
         else if jsOr (jsToUpper st) "PENDING" = "REJECTED" then "DENY"
         else "")) ∧
    (doPostDecision sheet rid st cm).emails =
      (if row.employeeEmail ≠ "" then [row.employeeEmail] else []) := by
  have hlen : i < sheet.rows.length := by
    rcases List.getElem?_eq_some.mp hrow with ⟨h, _⟩
    exact h
  constructor
  · simp only [doPostDecision]
    rw [if_neg hne]
    simp only [hfind, hrow]
    simp [decidedRow, List.getElem?_set_self hlen]
  · simp only [doPostDecision]
    rw [if_neg hne]
    simp [hfind, hrow]

/-- Full characterisation of the found case of the deep-link path,
shared by several claims. -/
theorem doGet_found_spec (sheet : Sheet) (action rid : String)
    (i : Nat) (row : LogRow)
    (ha : action ≠ "") (hr : rid ≠ "")
    (hfind : findStrictRow sheet.rows rid = some i)
    (hrow : sheet.rows[i]? = some row) :
    (doGet sheet action rid).sheet.rows[i]? =
      some (actedRow row
        (if jsToUpper action = "APPROVE" then "APPROVED" else "REJECTED")
        (jsToUpper action)) ∧
    (doGet sheet action rid).emails =
      (if row.employeeEmail ≠ "" then [row.employeeEmail] else []) := by
  have hlen : i < sheet.rows.length := by
    rcases List.getElem?_eq_some.mp hrow with ⟨h, _⟩
    exact h
  constructor
  · simp only [doGet]
    rw [if_neg (by simp [ha, hr])]
    simp only [hfind, hrow]
    by_cases hact : jsToUpper action = "APPROVE" <;>
      simp [hact, actedRow, List.getElem?_set_self hlen]
  · simp only [doGet]
    rw [if_neg (by simp [ha, hr])]
    simp [hfind, hrow]

/-- A concrete row carrying a pre-existing manager comment and no
employee email, on which the two decision entry points diverge. -/
def c2Row : LogRow := { mkRow "REQ-EEEE0001" "PENDING" with managerComment := "OLD" }

/-- The one-row sheet around c2Row. -/
def c2Sheet : Sheet := { header := desiredLogHeader, rows := [c2Row] }

/-- C2 counterexample: on a row whose Manager Comment cell is OLD and
whose employee email cell is empty, the POST decision with an empty
comment and the deep-link click leave different Manager Comment cells,
and the POST decision sends zero requester notifications rather than
exactly one. -/
theorem C2_entry_point_equivalence_counterexample :
    ((doPostDecision c2Sheet "REQ-EEEE0001" "APPROVED" "").sheet.rows[0]? ≠
      (doGet c2Sheet "APPROVE" "REQ-EEEE0001").sheet.rows[0]?) ∧
    ((doPostDecision c2Sheet "REQ-EEEE0001" "APPROVED" "").emails.length = 0) := by
  decide

/-- C2 amended: for corresponding decisions (APPROVED with APPROVE,
REJECTED with DENY) the two entry points write the same Status and
Manager Action; the targeted row ends in the same full state whenever
its existing Manager Comment already equals the trimmed POST comment,
and each entry point sends exactly one requester notification when the
employee email cell is nonempty and none when it is empty. -/
theorem C2_entry_points_agree_when_comment_matches :
    ∀ (sheet : Sheet) (rid cm : String) (i : Nat) (row : LogRow),
    jsTrim rid ≠ "" → rid ≠ "" →
    findLogRowByRequestId sheet.rows (jsTrim rid) = some i →
    findStrictRow sheet.rows rid = some i →
    sheet.rows[i]? = some row →
    row.managerComment = jsTrim cm →
    ((doPostDecision sheet rid "APPROVED" cm).sheet.rows[i]? =
        (doGet sheet "APPROVE" rid).sheet.rows[i]? ∧
      (doPostDecision sheet rid "REJECTED" cm).sheet.rows[i]? =
        (doGet sheet "DENY" rid).sheet.rows[i]? ∧
      (doPostDecision sheet rid "APPROVED" cm).emails =
        (doGet sheet "APPROVE" rid).emails ∧
      (doPostDecision sheet rid "REJECTED" cm).emails =
        (doGet sheet "DENY" rid).emails ∧
      (doGet sheet "APPROVE" rid).emails.length =
        (if row.employeeEmail = "" then 0 else 1) ∧
      (doGet sheet "DENY" rid).emails.length =
        (if row.employeeEmail = "" then 0 else 1)) := by
  intro sheet rid cm i row hne hr hfindP hfindG hrow hcm
  have hPA := doPostDecision_found_spec sheet rid "APPROVED" cm i row hne hfindP hrow
  have hPR := doPostDecision_found_spec sheet rid "REJECTED" cm i row hne hfindP hrow
  have hGA := doGet_found_spec sheet "APPROVE" rid i row (by decide) hr hfindG hrow
  have hGD := doGet_found_spec sheet "DENY" rid i row (by decide) hr hfindG hrow
  have eA : jsOr (jsToUpper "APPROVED") "PENDING" = "APPROVED" := by decide
  have eR : jsOr (jsToUpper "REJECTED") "PENDING" = "REJECTED" := by decide
  have eUA : jsToUpper "APPROVE" = "APPROVE" := by decide
  have eUD : jsToUpper "DENY" = "DENY" := by decide
  rw [eA] at hPA
  rw [eR] at hPR
  rw [eUA] at hGA
  rw [eUD] at hGD
  have e1 : (if ("APPROVED" : String) = "APPROVED" then "APPROVE"
      else if ("APPROVED" : String) = "REJECTED" then "DENY" else "") =
      "APPROVE" := by decide
  have e2 : (if ("REJECTED" : String) = "APPROVED" then "APPROVE"
      else if ("REJECTED" : String) = "REJECTED" then "DENY" else "") =
      "DENY" := by decide
  have e3 : (if ("APPROVE" : String) = "APPROVE" then "APPROVED"
      else "REJECTED") = "APPROVED" := by decide
  have e4 : (if ("DENY" : String) = "APPROVE" then "APPROVED"
      else "REJECTED") = "REJECTED" := by decide
  rw [e1] at hPA
  rw [e2] at hPR
  rw [e3] at hGA
  rw [e4] at hGD
  have rowA : decidedRow row "APPROVED" (jsTrim cm) "APPROVE" =
      actedRow row "APPROVED" "APPROVE" := by
    cases row
    simp_all [decidedRow, actedRow]
  have rowR : decidedRow row "REJECTED" (jsTrim cm) "DENY" =
      actedRow row "REJECTED" "DENY" := by
    cases row
    simp_all [decidedRow, actedRow]
  refine ⟨?_, ?_, ?_, ?_, ?_, ?_⟩
  · rw [hPA.1, hGA.1, rowA]
  · rw [hPR.1, hGD.1, rowR]
  · rw [hPA.2, hGA.2]
  · rw [hPR.2, hGD.2]
  · rw [hGA.2]
    by_cases he : row.employeeEmail = "" <;> simp [he]
  · rw [hGD.2]
    by_cases he : row.employeeEmail = "" <;> simp [he]

/-- A concrete row with an empty manager comment and a nonempty
employee email, on which the two entry points agree. -/
def c2wRow : LogRow := { mkRow "REQ-EEEE0002" "PENDING" with employeeEmail := "emp@x.co" }

/-- The one-row sheet around c2wRow. -/
def c2wSheet : Sheet := { header := desiredLogHeader, rows := [c2wRow] }

/-- Witness for the C2 amended theorem on a fresh row: identical final
row states and exactly one notification each. -/
theorem C2_entry_points_agree_when_comment_matches_witness :
    ((doPostDecision c2wSheet "REQ-EEEE0002" "APPROVED" "").sheet.rows[0]? =
      (doGet c2wSheet "APPROVE" "REQ-EEEE0002").sheet.rows[0]?) ∧
    ((doGet c2wSheet "APPROVE" "REQ-EEEE0002").emails.length = 1) := by
  have h := C2_entry_points_agree_when_comment_matches c2wSheet "REQ-EEEE0002"
    "" 0 c2wRow (by decide) (by decide) (by decide) (by decide) (by decide)
    (by decide)
  refine ⟨h.1, ?_⟩
  rw [h.2.2.2.2.1]
  decide

/-- Uppercasing a lowercase base-36 digit lands in the A-Z, 0-9 class. -/
theorem base36_toUpper_mem : ∀ c ∈ base36Lower, Char.toUpper c ∈ upperAlnum := by
  decide

/-- C3 counterexample: Math.random can return one half, whose base-36
string is 0.i, and the minted id is then REQ-I, which does not match
the claimed pattern of exactly eight characters after REQ-. -/
theorem C3_reqid_length_counterexample :
    jsRandomBase36Valid "0.i".toList ∧
    newRequestIdChars "0.i".toList = "REQ-I".toList ∧
    matchesReqIdPattern (newRequestIdChars "0.i".toList) = false := by
  refine ⟨Or.inr ⟨['i'], by decide, by decide, by decide⟩, by decide, by decide⟩

/-- C3 amended: the minted id always starts with REQ-, its tail is drawn
from A-Z and 0-9 and has length min(fraction digits, 8) — so exactly
eight whenever the random base-36 string has at least eight fraction
digits — and a created row carries status PENDING and the minted id. -/
theorem C3_create_id_shape_and_pending :
    (∀ s : List Char, jsRandomBase36Valid s →
      (newRequestIdChars s).take 4 = "REQ-".toList ∧
      ((newRequestIdChars s).drop 4).length = min (s.length - 2) 8 ∧
      (∀ c ∈ (newRequestIdChars s).drop 4, c ∈ upperAlnum) ∧
      (10 ≤ s.length → matchesReqIdPattern (newRequestIdChars s) = true)) ∧
    (∀ (sheet : Sheet) (draft : Draft) (now rnd manager : String),
      draft.status = "PENDING" →
      ((doPostNewRequest sheet draft now rnd manager).sheet.rows.getLast?).map
          LogRow.status = some "PENDING" ∧
      ((doPostNewRequest sheet draft now rnd manager).sheet.rows.getLast?).map
          LogRow.requestId = some (newRequestId rnd)) := by
  constructor
  · intro s hs
    have htake : (newRequestIdChars s).take 4 = "REQ-".toList := rfl
    have hdrop : (newRequestIdChars s).drop 4 =
        ((s.drop 2).take 8).map Char.toUpper := rfl
    have hlen : ((newRequestIdChars s).drop 4).length = min (s.length - 2) 8 := by
      rw [hdrop]
      simp [List.length_take, List.length_drop, Nat.min_comm]
    have hmem : ∀ c ∈ (newRequestIdChars s).drop 4, c ∈ upperAlnum := by
      intro c hc
      rw [hdrop] at hc
      rcases List.mem_map.mp hc with ⟨c0, hc0, rfl⟩
      have hc0s : c0 ∈ s.drop 2 := List.take_subset 8 _ hc0
      rcases hs with h0 | ⟨ds, rfl, _, hds⟩
      · subst h0
        simp at hc0s
      · have : c0 ∈ ds := by simpa using hc0s
        exact base36_toUpper_mem c0 (hds c0 this)
    refine ⟨htake, hlen, hmem, ?_⟩
    intro hlong
    have h8 : ((newRequestIdChars s).drop 4).length = 8 := by
      rw [hlen]
      omega
    simp only [matchesReqIdPattern, Bool.and_eq_true, beq_iff_eq,
      List.all_eq_true, decide_eq_true_eq]
    exact ⟨⟨htake, by rw [h8]⟩, hmem⟩
  · intro sheet draft now rnd manager hst
    simp only [doPostNewRequest, List.getLast?_concat, Option.map_some]
    constructor
    · simp [hst, jsOr]
    · rfl

/-- Witness for the C3 amended theorem: an eight-digit random string
gives a pattern-matching id, and a PENDING draft creates a PENDING row. -/
theorem C3_create_id_shape_and_pending_witness :
    matchesReqIdPattern (newRequestIdChars "0.a1b2c3d4".toList) = true ∧
    ((doPostNewRequest { header := desiredLogHeader, rows := [] }
        { status := "PENDING", employeeName := "N", employeeEmail := "e@x.co",
          employeeId := "E1", startDate := "2024-01-10", endDate := "2024-01-12",
          reason := "r", managerComment := "", permissionType := "leave",
          leaveType := "Casual Leave", requestedInTime := "",
          requestedOutTime := "", alternateStaff := "" }
        "2024-01-09T00:00:00Z" "0.a1b2c3d4" "mgr@x.co").sheet.rows.getLast?).map
        LogRow.status = some "PENDING" := by
  constructor
  · exact (C3_create_id_shape_and_pending.1 "0.a1b2c3d4".toList
      (Or.inr ⟨"a1b2c3d4".toList, by decide, by decide, by decide⟩)).2.2.2
      (by decide)
  · exact (C3_create_id_shape_and_pending.2
      { header := desiredLogHeader, rows := [] }
      { status := "PENDING", employeeName := "N", employeeEmail := "e@x.co",
        employeeId := "E1", startDate := "2024-01-10", endDate := "2024-01-12",
        reason := "r", managerComment := "", permissionType := "leave",
        leaveType := "Casual Leave", requestedInTime := "",
        requestedOutTime := "", alternateStaff := "" }
      "2024-01-09T00:00:00Z" "0.a1b2c3d4" "mgr@x.co" rfl).1

/-- C8: with permission selected and the In Between Permission leave
type, both time inputs are rendered as required fields and their values
are persisted verbatim by handleSubmit; and whenever permissionType
does not normalize to permission, the change effect empties both time
fields and empties a permission-only leave type. -/
theorem C8_permission_time_fields :
    (∀ fs : FormState,
      normalizeField fs.permissionType = "permission" →
      normalizeField fs.leaveType = normalizeField "In Between Permission" →
      showInTimeField fs = true ∧ showOutTimeField fs = true ∧
      (submittedEntry fs).requestedInTime = fs.requestedInTime ∧
      (submittedEntry fs).requestedOutTime = fs.requestedOutTime) ∧
    (∀ fs : FormState,
      normalizeField fs.permissionType ≠ "permission" →
      (effectPermissionTypeChange fs).requestedInTime = "" ∧
      (effectPermissionTypeChange fs).requestedOutTime = "" ∧
      (normalizeField fs.leaveType ∈ permissionOnlyNormalized →
        (effectPermissionTypeChange fs).leaveType = "")) := by
  constructor
  · intro fs h1 h2
    have hin : showInTimeField fs = true := by
      simp [showInTimeField, isPermission, h1, h2]
    have hout : showOutTimeField fs = true := by
      simp [showOutTimeField, isPermission, h1, h2]
    exact ⟨hin, hout, by simp [submittedEntry, hin], by simp [submittedEntry, hout]⟩
  · intro fs h1
    have hb : (normalizeField fs.permissionType != "permission") = true :=
      bne_iff_ne.mpr h1
    by_cases hmem : normalizeField fs.leaveType ∈ permissionOnlyNormalized
    · have hc : permissionOnlyNormalized.contains (normalizeField fs.leaveType)
          = true := List.elem_iff.mpr hmem
      simp [effectPermissionTypeChange, hb, hc, hmem]
    · have hc : permissionOnlyNormalized.contains (normalizeField fs.leaveType)
          = false := by
        rw [Bool.eq_false_iff]
        intro h
        exact hmem (List.elem_iff.mp h)
      simp [effectPermissionTypeChange, hb, hc, hmem]

/-- A form state for the C8 witness: permission with In Between
Permission and both times filled. -/
def c8Form : FormState :=
  { name := "N", email := "e@x.co", empId := "E1",
    permissionType := "Permission", leaveType := "In Between Permission",
    requestedInTime := "09:00", requestedOutTime := "11:00",
    startDate := "2024-01-10", endDate := "2024-01-10",
    alternateStaff := "", reason := "errand" }

/-- Witness for C8: the concrete form persists both times, and the same
state with permissionType switched to leave is fully cleared by the
change effect. -/
theorem C8_permission_time_fields_witness :
    ((submittedEntry c8Form).requestedInTime = "09:00" ∧
      (submittedEntry c8Form).requestedOutTime = "11:00") ∧
    ((effectPermissionTypeChange { c8Form with permissionType := "leave" }).requestedInTime = "" ∧
      (effectPermissionTypeChange { c8Form with permissionType := "leave" }).leaveType = "") := by
  constructor
  · have h := C8_permission_time_fields.1 c8Form (by decide) (by decide)
    exact ⟨h.2.2.1, h.2.2.2⟩
  · have h := C8_permission_time_fields.2 { c8Form with permissionType := "leave" }
      (by decide)
    exact ⟨h.1, h.2.2 (by decide)⟩

/-- Writing a profile under a key makes it the value read back for that
key. -/
theorem roleCacheGet_set_self (rc : RoleCache) (n : String) (p : UserProfile) :
    roleCacheGet (roleCacheSet rc n p) n = some p := by
  induction rc with
  | nil => simp [roleCacheSet, roleCacheGet]
  | cons q rest ih =>
    simp only [roleCacheSet]
    by_cases hq : q.1 == n
    · rw [if_pos hq]
      simp [roleCacheGet]
    · rw [if_neg hq]
      simp only [roleCacheGet] at ih ⊢
      rw [List.find?_cons_of_neg _ (by simpa using hq)]
      exact ih

/-- A resolving fetchUserRole call leaves the profile in the role cache
under the normalized email. -/
theorem fetchUserRole_result_cached (email : String) (rc : RoleCache)
    (cfg : Bool) (o : RemoteOutcome) (dc : DirCache) (p : UserProfile)
    (h : (fetchUserRole email rc cfg o dc).result = some p) :
    roleCacheGet (fetchUserRole email rc cfg o dc).roleCache
      (jsToLower (jsTrim email)) = some p := by
  by_cases hn : jsToLower (jsTrim email) = ""
  · exfalso
    simp only [fetchUserRole] at h
    rw [if_pos hn] at h
    simp at h
  · rcases hget : roleCacheGet rc (jsToLower (jsTrim email)) with _ | q
    · rcases hfind : (fetchEmployeeDirectory cfg o dc).result.find?
          (fun e => e.email == jsToLower (jsTrim email)) with _ | m
      · exfalso
        simp only [fetchUserRole] at h
        rw [if_neg hn] at h
        rw [hget] at h
        simp only [hfind] at h
        simp at h
      · simp only [fetchUserRole] at h ⊢
        rw [if_neg hn] at h ⊢
        rw [hget] at h ⊢
        simp only [hfind] at h ⊢
        simp only [Option.some.injEq] at h
        rw [roleCacheGet_set_self]
        rw [h]
    · simp only [fetchUserRole] at h ⊢
      rw [if_neg hn] at h ⊢
      rw [hget] at h ⊢
      simp only [Option.some.injEq] at h
      rw [hget, h]

/-- A cache hit short-circuits: with the normalized email cached,
fetchUserRole returns the cached profile, fetches nothing, and leaves
the caches alone. -/
theorem fetchUserRole_hit (email : String) (rc : RoleCache) (cfg : Bool)
    (o : RemoteOutcome) (dc : DirCache) (p : UserProfile)
    (hn : jsToLower (jsTrim email) ≠ "")
    (h : roleCacheGet rc (jsToLower (jsTrim email)) = some p) :
    fetchUserRole email rc cfg o dc =
      { result := some p, roleCache := rc, dirCache := dc,
        fetchedDirectory := false } := by
  simp [fetchUserRole, hn, h]

/-- A resolving call normalizes to a nonempty email. -/
theorem fetchUserRole_result_nonempty (email : String) (rc : RoleCache)
    (cfg : Bool) (o : RemoteOutcome) (dc : DirCache) (p : UserProfile)
    (h : (fetchUserRole email rc cfg o dc).result = some p) :
    jsToLower (jsTrim email) ≠ "" := by
  intro hn
  simp [fetchUserRole, hn] at h

/-- C9: once fetchUserRole has resolved an email to a profile, any later
call with an email that trims and lowercases to the same key returns
that same profile from the role cache, does not fetch the directory
again, and leaves the role cache unchanged. -/
theorem C9_role_cache_short_circuit :
    ∀ (email e2 : String) (rc : RoleCache) (cfg c2 : Bool)
      (o o2 : RemoteOutcome) (dc d2 : DirCache) (p : UserProfile),
    jsToLower (jsTrim e2) = jsToLower (jsTrim email) →
    (fetchUserRole email rc cfg o dc).result = some p →
    (fetchUserRole e2 (fetchUserRole email rc cfg o dc).roleCache c2 o2 d2) =
      { result := some p
        roleCache := (fetchUserRole email rc cfg o dc).roleCache
        dirCache := d2
        fetchedDirectory := false } := by
  intro email e2 rc cfg c2 o o2 dc d2 p heq h
  have hn := fetchUserRole_result_nonempty email rc cfg o dc p h
  have hcached := fetchUserRole_result_cached email rc cfg o dc p h
  exact fetchUserRole_hit e2 _ c2 o2 d2 p (by rw [heq]; exact hn)
    (by rw [heq]; exact hcached)

/-- The concrete directory grid used by the C9 witness. -/
def c9Grid : RemoteOutcome :=
  RemoteOutcome.ok (some [["email", "role", "name"], ["e@x.co", "manager", "G"]])

/-- Witness for C9: after resolving E@X.co through the directory once, a
second call with e@x.co is served from the role cache without another
directory fetch. -/
theorem C9_role_cache_short_circuit_witness :
    (fetchUserRole "e@x.co"
        (fetchUserRole "E@X.co " [] true c9Grid []).roleCache
        true RemoteOutcome.netError []) =
      { result := some { email := "e@x.co", name := "G", role := "manager" }
        roleCache := (fetchUserRole "E@X.co " [] true c9Grid []).roleCache
        dirCache := []
        fetchedDirectory := false } := by
  exact C9_role_cache_short_circuit "E@X.co " "e@x.co" [] true true c9Grid
    RemoteOutcome.netError [] []
    { email := "e@x.co", name := "G", role := "manager" }
    (by decide) (by decide)

/-- The newest-first comparator can always be satisfied in one of the
two directions: it is antisymmetric in sign. -/
theorem cmpNewestFirst_total (dp : String → Option Int)
    (a b : LogSheetRecord) :
    cmpNewestFirst dp a b ≤ 0 ∨ cmpNewestFirst dp b a ≤ 0 := by
  unfold cmpNewestFirst
  cases h1 : dp a.timestamp <;> cases h2 : dp b.timestamp
  all_goals simp
  omega

/-- Inserting into a prefix whose reversed form is adjacently ordered
keeps it adjacently ordered, for any sign-antisymmetric comparator. -/
theorem insertRevBy_revChain (cmp : α → α → Int)
    (hcmp : ∀ a b, cmp a b ≤ 0 ∨ cmp b a ≤ 0) (x : α) :
    ∀ l : List α, List.Chain' (fun a b => cmp b a ≤ 0) l →
      List.Chain' (fun a b => cmp b a ≤ 0) (insertRevBy cmp x l)
  | [], _ => by simp [insertRevBy]
  | z :: zs, hl => by
    by_cases hzx : cmp z x ≤ 0
    · rw [insertRevBy, if_pos hzx]
      exact List.Chain'.cons hzx hl
    · have hxz : cmp x z ≤ 0 := (hcmp x z).resolve_right hzx
      rw [insertRevBy, if_neg hzx]
      cases zs with
      | nil =>
        simp only [insertRevBy]
        exact List.Chain'.cons hxz (by simp)
      | cons w ws =>
        rcases List.chain'_cons.mp hl with ⟨hwz, hl1⟩
        have ih := insertRevBy_revChain cmp hcmp x (w :: ws) hl1
        rw [List.chain'_cons']
        refine ⟨?_, ih⟩
        intro y hy
        by_cases hwx : cmp w x ≤ 0
        · rw [insertRevBy, if_pos hwx] at hy
          simp at hy
          rw [← hy]
          exact hxz
        · rw [insertRevBy, if_neg hwx] at hy
          simp at hy
          rw [← hy]
          exact hwz

/-- The reversed accumulator stays adjacently ordered through the whole
fold. -/
theorem foldl_insert_revChain (cmp : α → α → Int)
    (hcmp : ∀ a b, cmp a b ≤ 0 ∨ cmp b a ≤ 0) :
    ∀ (l acc : List α), List.Chain' (fun a b => cmp b a ≤ 0) acc →
      List.Chain' (fun a b => cmp b a ≤ 0)
        (l.foldl (fun acc x => insertRevBy cmp x acc) acc)
  | [], _, h => h
  | x :: xs, acc, h =>
      foldl_insert_revChain cmp hcmp xs _ (insertRevBy_revChain cmp hcmp x acc h)

/-- Output of the stable sort is adjacently ordered by the comparator. -/
theorem jsStableSort_chain (cmp : α → α → Int)
    (hcmp : ∀ a b, cmp a b ≤ 0 ∨ cmp b a ≤ 0) (l : List α) :
    List.Chain' (fun a b => cmp a b ≤ 0) (jsStableSort cmp l) := by
  have h := foldl_insert_revChain cmp hcmp l [] (by simp)
  rw [jsStableSort, List.chain'_reverse]
  exact h

/-- Insertion is a permutation step. -/
theorem insertRevBy_perm (cmp : α → α → Int) (x : α) :
    ∀ l : List α, (insertRevBy cmp x l).Perm (x :: l)
  | [] => List.Perm.refl _
  | z :: zs => by
    by_cases h : cmp z x ≤ 0
    · rw [insertRevBy, if_pos h]
    · rw [insertRevBy, if_neg h]
      exact ((insertRevBy_perm cmp x zs).cons z).trans (List.Perm.swap x z zs)

/-- The fold accumulates a permutation of the processed elements. -/
theorem foldl_insert_perm (cmp : α → α → Int) :
    ∀ (l acc : List α),
      (l.foldl (fun acc x => insertRevBy cmp x acc) acc).Perm (l ++ acc)
  | [], _ => List.Perm.refl _
  | x :: xs, acc => by
    have ih := foldl_insert_perm cmp xs (insertRevBy cmp x acc)
    have h1 : (xs ++ insertRevBy cmp x acc).Perm (xs ++ x :: acc) :=
      List.Perm.append_left xs (insertRevBy_perm cmp x acc)
    have h2 : (xs ++ x :: acc).Perm (x :: (xs ++ acc)) := List.perm_middle
    exact ((ih.trans h1).trans h2)

/-- The stable sort permutes its input. -/
theorem jsStableSort_perm (cmp : α → α → Int) (l : List α) :
    (jsStableSort cmp l).Perm l := by
  have h := foldl_insert_perm cmp l []
  rw [List.append_nil] at h
  exact (List.reverse_perm _).trans h

/-- C7: the sort used by the list and history reads is a permutation
whose adjacent pairs all satisfy the comparator; since the comparator
returns 0 whenever either timestamp fails to parse, this local order is
all the sort guarantees, and parsable records separated by an
unparsable one can stay out of order. -/
theorem C7_sort_local_order (dateParse : String → Option Int)
    (l : List LogSheetRecord) :
    (sortLogRecords dateParse l).Perm l ∧
    List.Chain' (fun a b => cmpNewestFirst dateParse a b ≤ 0)
      (sortLogRecords dateParse l) :=
  ⟨jsStableSort_perm _ l,
    jsStableSort_chain _ (cmpNewestFirst_total dateParse) l⟩

/-- An oracle for Date.parse used on concrete record sets: strings of
decimal digits parse to their value, everything else is NaN. -/
def numericTimestampParse (s : String) : Option Int :=
  if s.data ≠ [] ∧ s.data.all Char.isDigit then
    some (s.data.foldl (fun n c => 10 * n + ((c.toNat : Int) - 48)) 0)
  else none

/-- A record whose only populated cell is the timestamp. -/
def mkLogRec (ts : String) : LogSheetRecord :=
  ⟨ts, "", "", "", "", "", "", "", "", "", "", "", "", "", ""⟩

/-- Ten records: nine parsable timestamps and one unparsable in third
position, arranged so that every adjacent comparator value is zero or
negative while the parsable records are not globally newest-first. -/
def c7Records : List LogSheetRecord :=
  [mkLogRec "100", mkLogRec "90", mkLogRec "X", mkLogRec "95",
   mkLogRec "94", mkLogRec "93", mkLogRec "92", mkLogRec "91",
   mkLogRec "85", mkLogRec "80"]

/-- Strict newest-first order of a record list: every record is
strictly newer than its successor under the parse oracle. -/
def newestFirstStrict (dp : String → Option Int) : List LogSheetRecord → Bool
  | [] => true
  | [_] => true
  | a :: b :: rest =>
      decide ((dp b.timestamp).getD 0 < (dp a.timestamp).getD 0) &&
        newestFirstStrict dp (b :: rest)

/-- The boolean order check coincides with the adjacent-pairs chain. -/
theorem newestFirstStrict_iff_chain (dp : String → Option Int) :
    ∀ l : List LogSheetRecord,
      newestFirstStrict dp l = true ↔
        List.Chain' (fun a b =>
          (dp b.timestamp).getD 0 < (dp a.timestamp).getD 0) l
  | [] => by simp [newestFirstStrict]
  | [a] => by simp [newestFirstStrict]
  | a :: b :: rest => by
    rw [newestFirstStrict, List.chain'_cons, Bool.and_eq_true,
      decide_eq_true_eq, newestFirstStrict_iff_chain dp (b :: rest)]

/-- C7 counterexample: on this ten-record set with exactly one
unparsable timestamp, the sort returns the input unchanged, and the
nine parsable records are not in strictly newest-first order — the pair
90, 95 straddling the unparsable record stays inverted. -/
theorem C7_sort_unparsable_counterexample :
    c7Records.length = 10 ∧
    (c7Records.filter
      (fun r => (numericTimestampParse r.timestamp).isNone)).length = 1 ∧
    sortLogRecords numericTimestampParse c7Records = c7Records ∧
    newestFirstStrict numericTimestampParse
      ((sortLogRecords numericTimestampParse c7Records).filter
        (fun r => (numericTimestampParse r.timestamp).isSome)) = false := by
  refine ⟨by decide, by decide, by decide, by decide⟩

/-- The concrete cached directory entry of the C6 counterexample. -/
def c6CachedRec : EmployeeRecord :=
  { email := "a@b.co", name := "A", employeeId := "E9", role := "employee" }

/-- C6 counterexample: with a nonempty directory cache, a non-success
response status makes fetchEmployeeDirectory return the empty list, not
the most recently cached value. -/
theorem C6_httpError_ignores_cache_counterexample :
    (fetchEmployeeDirectory true RemoteOutcome.httpError
      [("a@b.co", c6CachedRec)]).result = [] ∧
    ([("a@b.co", c6CachedRec)] : DirCache).map (fun p => p.2) =
      [c6CachedRec] ∧
    [c6CachedRec] ≠ ([] : List EmployeeRecord) := by
  refine ⟨rfl, rfl, by decide⟩

/-- C6 amended: the lookup-options fetch falls back to the cached value
(or the empty set) on every failure mode, while the employee-directory
fetch does so only for thrown failures (network error, malformed body)
and returns the empty directory on a non-success response status even
when a cache entry exists; every failure is logged and none is
surfaced as an error. -/
theorem C6_failure_fallback_policy :
    (∀ cache : DirCache,
      (fetchEmployeeDirectory true RemoteOutcome.netError cache).result =
        cache.map (fun p => p.2) ∧
      (fetchEmployeeDirectory true RemoteOutcome.malformedBody cache).result =
        cache.map (fun p => p.2) ∧
      (fetchEmployeeDirectory true RemoteOutcome.httpError cache).result = [] ∧
      (fetchEmployeeDirectory true RemoteOutcome.netError cache).logged = true ∧
      (fetchEmployeeDirectory true RemoteOutcome.malformedBody cache).logged
        = true ∧
      (fetchEmployeeDirectory true RemoteOutcome.httpError cache).logged
        = true) ∧
    (∀ cache : Option LookupOptions,
      (fetchLookupOptions true RemoteOutcome.netError cache).result =
        cache.getD emptyLookupOptions ∧
      (fetchLookupOptions true RemoteOutcome.malformedBody cache).result =
        cache.getD emptyLookupOptions ∧
      (fetchLookupOptions true RemoteOutcome.httpError cache).result =
        cache.getD emptyLookupOptions ∧
      (fetchLookupOptions true RemoteOutcome.netError cache).logged = true ∧
      (fetchLookupOptions true RemoteOutcome.malformedBody cache).logged
        = true ∧
      (fetchLookupOptions true RemoteOutcome.httpError cache).logged = true) :=
  ⟨fun _ => ⟨rfl, rfl, rfl, rfl, rfl, rfl⟩,
    fun _ => ⟨rfl, rfl, rfl, rfl, rfl, rfl⟩⟩
